import Mathlib

/-!
Verification of the Coffee 2D game framework's UI core and asset-loading
task system, as a shallow embedding in Lean 4.

Conventions of the embedding:
* `f32` coordinates and colors are modelled by `ℚ` (the operations under
  study are comparisons and field arithmetic only).
* `u32` / `u16` machine integers are modelled by `Nat`; where an addition
  can overflow, the wrap is written explicitly as `% 2 ^ 32`.
* Rust `panic!` / `expect` failure is modelled by `Option`, with `none`
  standing for the panic branch.
* Type-erased child elements (trait objects) are modelled by records of
  their capability functions.
-/

namespace Coffee

/-- A 2D point (graphics/point.rs), coordinates modelled by `ℚ`. -/
structure Point where
  x : ℚ
  y : ℚ
deriving DecidableEq

/-- A 2D vector (graphics/vector.rs), coordinates modelled by `ℚ`. -/
structure Vec2 where
  x : ℚ
  y : ℚ
deriving DecidableEq

/-- A generic rectangle (graphics/rectangle.rs): top-left corner plus size. -/
structure Rectangle (α : Type) where
  x : α
  y : α
  width : α
  height : α
deriving DecidableEq

/-- Modelled from the spec: `Rectangle::contains` is not among the collected
sources (only its call sites are); the spec says leaf widgets "test
`cursor_position` against their resolved bounds", so containment is the
closed-interval hit test of the rectangle's extent. -/
def Rectangle.contains (r : Rectangle ℚ) (point : Point) : Bool :=
  decide (r.x ≤ point.x ∧ point.x ≤ r.x + r.width ∧
    r.y ≤ point.y ∧ point.y ≤ r.y + r.height)

/-- Mouse cursor hints (ui/core/mouse_cursor.rs). -/
inductive MouseCursor where
  | default
  | pointer
  | working
  | grab
  | grabbing
deriving DecidableEq

/-- Mouse buttons (crate::input::MouseButton); modelled from the spec's
event vocabulary, only `left` is inspected by the widgets under study. -/
inductive MouseButton where
  | left
  | right
  | middle
deriving DecidableEq

/-- Button press state (crate::input::ButtonState). -/
inductive ButtonState where
  | pressed
  | released
deriving DecidableEq

/-- Modelled from the spec: the core `Event` type is not among the collected
sources; the spec lists the variants "MouseInput{button, state}, pointer
motion, keyboard input". -/
inductive Event where
  | mouseInput (state : ButtonState) (button : MouseButton)
  | cursorMoved (x : ℚ) (y : ℚ)
  | keyboardInput (keyCode : Nat) (state : ButtonState)
deriving DecidableEq

/-- Modelled from the spec: the resolved `Layout` type is not among the
collected sources; per the spec it is, for each node, an absolute
position and concrete width/height forming a tree parallel to the Node
tree, exposing `bounds` and `children`. -/
inductive Layout where
  | mk (bounds : Rectangle ℚ) (children : List Layout)

/-- Resolved bounds of this layout node. -/
def Layout.bounds : Layout → Rectangle ℚ
  | .mk b _ => b

/-- Resolved children of this layout node, in order. -/
def Layout.children : Layout → List Layout
  | .mk _ cs => cs

/-- An RGBA color (graphics/color.rs), channels modelled by `ℚ`. -/
structure Color where
  r : ℚ
  g : ℚ
  b : ℚ
  a : ℚ
deriving DecidableEq

/-! ## load.rs: Progress, Worker and Task -/

/-- The progress of a task (load.rs, `struct Progress`): `u32` work
counters modelled by `Nat`, the stage title stack by a list. -/
structure Progress where
  total_work : Nat
  work_completed : Nat
  stages : List String
deriving DecidableEq

/-- Amount of completed work (load.rs `Progress::completed_work`):
`self.work_completed.min(self.total_work)`. -/
def Progress.completed_work (p : Progress) : Nat :=
  min p.work_completed p.total_work

/-- Progress as a percentage (load.rs `Progress::percentage`):
`completed_work() as f32 / self.total_work.max(1) as f32 * 100.0`. -/
def Progress.percentage (p : Progress) : ℚ :=
  (p.completed_work : ℚ) / ((max p.total_work 1 : Nat) : ℚ) * 100

/-- Title of the current stage (load.rs `Progress::stage`):
`self.stages.last()`. -/
def Progress.stage (p : Progress) : Option String :=
  p.stages.getLast?

/-- The worker running a task (load.rs, `struct Worker`). The window/GPU
handle is external; the listener invocations are recorded as the list of
progress snapshots passed to it. -/
structure Worker where
  progress : Progress
  reports : List Progress

/-- Report progress (load.rs `Worker::notify_progress`): bump the `u32`
counter (wrapping) and invoke the listener with the current progress. -/
def Worker.notify_progress (w : Worker) (work : Nat) : Worker :=
  let p := { w.progress with
    work_completed := (w.progress.work_completed + work) % 2 ^ 32 }
  { progress := p, reports := w.reports ++ [p] }

/-- Run a function under a stage title (load.rs `Worker::with_stage`):
push the title, notify, run, pop. -/
def Worker.with_stage {T : Type} (w : Worker) (title : String)
    (f : Worker → T × Worker) : T × Worker :=
  let w₁ := { w with progress :=
    { w.progress with stages := w.progress.stages ++ [title] } }
  let w₂ := w₁.notify_progress 0
  let r := f w₂
  (r.1, { r.2 with progress :=
    { r.2.progress with stages := r.2.progress.stages.dropLast } })

/-- A lazy loading operation (load.rs, `struct Task<T>`): total units of
work plus the function receiving the worker. -/
structure Task (T : Type) where
  total_work : Nat
  function : Worker → T × Worker

/-- Create a task from a lazy operation (load.rs `Task::new`). -/
def Task.new {T : Type} (f : Unit → T) : Task T :=
  { total_work := 1, function := fun w => (f (), w) }

/-- Create a task from a worker-using function (load.rs `Task::sequence`). -/
def Task.sequence {T : Type} (total_work : Nat) (f : Worker → T × Worker) :
    Task T :=
  { total_work := total_work, function := f }

/-- Add a title to a task (load.rs `Task::stage`): same total work, the
function runs under the pushed stage title. -/
def Task.stage {T : Type} (title : String) (task : Task T) : Task T :=
  { total_work := task.total_work,
    function := fun worker => worker.with_stage title task.function }

/-- Transform the output of a task (load.rs `Task::map`): same total work,
post-compose the function. -/
def Task.map {T A : Type} (task : Task T) (f : T → A) : Task A :=
  { total_work := task.total_work,
    function := fun worker =>
      let r := task.function worker
      (f r.1, r.2) }

/-- Join two tasks (load.rs `impl Join for (Task<A>, Task<B>)`): total
work is the (`u32`) sum, the function runs both in order on the worker. -/
def join2 {A B : Type} (self : Task A × Task B) : Task (A × B) :=
  let loader_a := self.1
  let loader_b := self.2
  Task.sequence ((loader_a.total_work + loader_b.total_work) % 2 ^ 32)
    (fun task =>
      let ra := loader_a.function task
      let rb := loader_b.function ra.2
      ((ra.1, rb.1), rb.2))

/-- Join three tasks (load.rs `impl Join for (Task<A>, Task<B>, Task<C>)`):
join the first two, join with the third, then reassociate with `map`. -/
def join3 {A B C : Type} (self : Task A × Task B × Task C) :
    Task (A × B × C) :=
  let loader_a := self.1
  let loader_b := self.2.1
  let loader_c := self.2.2
  (join2 (join2 (loader_a, loader_b), loader_c)).map
    (fun x => (x.1.1, x.1.2, x.2))

/-! ## Layout nodes (stretch style model) and the ui Style -/

/-- A layout dimension (external crate `stretch::style::Dimension`), the
variants used by the sources. -/
inductive Dimension where
  | undefined
  | auto
  | points (v : ℚ)
  | percent (v : ℚ)
deriving DecidableEq

/-- A rectangle of dimensions (external crate `stretch`), as used for
`style.margin`; `end'` models the `end` field. -/
structure DimRect where
  start : Dimension
  end' : Dimension
  top : Dimension
  bottom : Dimension
deriving DecidableEq

/-- The style record carried by a layout node (external crate
`stretch::style::Style`), restricted to the `margin` field, the only one
the sources under study read or write on produced child nodes. -/
structure NodeStyle where
  margin : DimRect
deriving DecidableEq

/-- A layout-constraint node (ui/core/node.rs wraps a `stretch` node):
a style plus ordered child nodes. -/
inductive Node where
  | mk (style : NodeStyle) (children : List Node)

/-- Style of a node (`node.0.style()`). -/
def Node.style : Node → NodeStyle
  | .mk s _ => s

/-- Children of a node, in push order. -/
def Node.children : Node → List Node
  | .mk _ cs => cs

/-- Replace the style of a node (`node.0.set_style(style)`). -/
def Node.set_style : Node → NodeStyle → Node
  | .mk _ cs, s => .mk s cs

/-- The ui Style builder record (ui/core/style.rs is not among the collected
sources; the fields are the ones the `Row` builders in row.rs touch). -/
structure Style where
  width : Option ℚ
  height : Option ℚ
  max_width : Option ℚ
  max_height : Option ℚ
  padding : Nat
  fill_width : Bool
  align_left : Bool
  center_children : Bool
deriving DecidableEq

/-- Default style (`Style::default()`). -/
def Style.defaultStyle : Style :=
  { width := none, height := none, max_width := none, max_height := none,
    padding := 0, fill_width := false, align_left := false,
    center_children := false }

/-- Modelled from the spec: `Node::new(style, children)` (ui/core/node.rs is
not among the collected sources) wraps the ui style and the children into a
layout node; the ui style contributes no margin of its own. -/
def Node.new (_style : Style) (children : List Node) : Node :=
  .mk { margin := ⟨.undefined, .undefined, .undefined, .undefined⟩ } children

/-! ## Row (ui/widget/row.rs) -/

/-- A type-erased child element of a container (ui/core/element.rs wraps a
boxed widget): the record of the capability functions dispatch needs.
`on_event` takes the event, the child layout, the cursor position and the
messages so far, returning the new messages; `draw` returns the cursor
hint; `node` is the child's produced layout node. -/
structure Element (M : Type) where
  node : Node
  on_event : Event → Layout → Point → List M → List M
  draw : Layout → Point → MouseCursor

/-- A horizontal container (ui/widget/row.rs, `struct Row`): style, `u16`
spacing and the child elements in push order. -/
structure Row (M : Type) where
  style : Style
  spacing : Nat
  children : List (Element M)

/-- Build the layout node of a `Row` (row.rs `Row::node`): map each child
to its node with `style.margin.end` set to `spacing` points, then reset the
last child's `margin.end` to `Undefined`, and wrap under the row's style. -/
def Row.node {M : Type} (row : Row M) : Node :=
  let children : List Node :=
    row.children.map fun child =>
      let node := child.node
      let style := node.style
      node.set_style
        { style with margin :=
          { style.margin with end' := .points (row.spacing : ℚ) } }
  let children : List Node :=
    match children.getLast? with
    | some node =>
        let style := node.style
        children.dropLast ++
          [node.set_style
            { style with margin := { style.margin with end' := .undefined } }]
    | none => children
  Node.new row.style children

/-- Dispatch an event into a `Row` (row.rs `Row::on_event`): zip the
children with the layout children and recurse, threading the messages. -/
def Row.on_event {M : Type} (row : Row M) (event : Event) (layout : Layout)
    (cursor_position : Point) (messages : List M) : List M :=
  (row.children.zip layout.children).foldl
    (fun msgs cl => cl.1.on_event event cl.2 cursor_position msgs) messages

/-- Draw a `Row` (row.rs `Row::draw`): start from the default cursor, zip
children with layout children, and keep each child's returned cursor when
it is not the default one. -/
def Row.draw {M : Type} (row : Row M) (layout : Layout)
    (cursor_position : Point) : MouseCursor :=
  (row.children.zip layout.children).foldl
    (fun cursor cl =>
      let new_cursor := cl.1.draw cl.2 cursor_position
      if new_cursor ≠ .default then new_cursor else cursor)
    .default

/-- The cursors returned by the child draw calls a `Row::draw` invocation
makes, in traversal order. -/
def Row.drawResults {M : Type} (row : Row M) (layout : Layout)
    (cursor_position : Point) : List MouseCursor :=
  (row.children.zip layout.children).map fun cl => cl.1.draw cl.2 cursor_position

/-! ## Checkbox (ui/core/widget/checkbox.rs) -/

/-- A box that can be checked (checkbox.rs, `struct Checkbox<Message>`). -/
structure Checkbox (M : Type) where
  is_checked : Bool
  on_toggle : Bool → M
  label : String
  label_color : Color

/-- Dispatch an event into a `Checkbox` (checkbox.rs `Checkbox::on_event`):
on a left-button press, if the cursor is inside the bounds of any child of
the paired layout, push `on_toggle(!is_checked)`; otherwise leave the
messages unchanged. -/
def Checkbox.on_event {M : Type} (cb : Checkbox M) (event : Event)
    (layout : Layout) (cursor_position : Point) (messages : List M) :
    List M :=
  match event with
  | .mouseInput .pressed .left =>
      let mouse_over :=
        layout.children.any fun child => child.bounds.contains cursor_position
      if mouse_over then messages ++ [cb.on_toggle (!cb.is_checked)]
      else messages
  | _ => messages

/-- Byte stream fed to a hasher by Rust's `Hash for str`: the string's
scalar values (standing for its UTF-8 bytes, an injective encoding)
followed by a `0xff` terminator. The hasher state is the list of values
fed so far. -/
def hashString (s : String) (state : List Nat) : List Nat :=
  state ++ s.data.map Char.toNat ++ [255]

/-- Hash a `Checkbox` (checkbox.rs `Checkbox::hash`): `self.label.hash(state)`
and nothing else. -/
def Checkbox.hash {M : Type} (cb : Checkbox M) (state : List Nat) :
    List Nat :=
  hashString cb.label state

/-! ## Button (ui/button.rs + spec section 4.2) -/

/-- Modelled from the spec: the persistent press/hover `State` of a Button.
The collected ui/button.rs declares `pub struct State {}` against an older
widget trait and carries no event logic; the spec says Button "holds a
mutable reference to externally-owned press/hover `State`", so the state
is the pressed flag the click protocol tracks. -/
structure ButtonUIState where
  is_pressed : Bool
deriving DecidableEq

/-- A button widget (ui/button.rs, `struct Button`): borrowed press state,
label, style and the optional configured click message. -/
structure Button (M : Type) where
  state : ButtonUIState
  label : String
  style : Style
  on_click : Option M

/-- Modelled from the spec: `Button::on_event`. The collected sources show
only the default no-op `Widget::on_event` (ui/widget.rs) and a Button with
no event logic, while the spec fixes the click semantics: "on a
left-mouse-press-inside-bounds event followed by release-inside-bounds,
emits the configured message exactly once per completed click (down+up
both inside bounds) — a press that moves outside bounds before release
must NOT emit". A press records whether it landed inside the bounds; a
release emits the configured message when the press flag is set and the
release is inside the bounds, and always clears the flag. -/
def Button.on_event {M : Type} (b : Button M) (event : Event)
    (layout : Layout) (cursor_position : Point) (messages : List M) :
    Button M × List M :=
  match b.on_click, event with
  | some _, .mouseInput .pressed .left =>
      ({ b with state :=
          { is_pressed := layout.bounds.contains cursor_position } },
        messages)
  | some msg, .mouseInput .released .left =>
      let is_clicked :=
        b.state.is_pressed && layout.bounds.contains cursor_position
      ({ b with state := { is_pressed := false } },
        if is_clicked then messages ++ [msg] else messages)
  | _, _ => (b, messages)

/-- Process a sequence of events paired with the cursor position at each
event through a button, threading the mutable state and messages. -/
def Button.process {M : Type} (b : Button M)
    (events : List (Event × Point)) (layout : Layout) (messages : List M) :
    Button M × List M :=
  events.foldl
    (fun acc ep => acc.1.on_event ep.1 layout ep.2 acc.2) (b, messages)

/-! ## Radio renderer capability (ui/radio.rs) -/

/-- A sprite queued for drawing (graphics, `Sprite`): `u16` source region,
position and scale. -/
structure Sprite where
  source : Rectangle Nat
  position : Point
  scale : ℚ × ℚ
deriving DecidableEq

/-- The radio sprite sheet region (ui/radio.rs, `const SPRITE`). -/
def SPRITE : Rectangle Nat :=
  { x := 98, y := 28, width := 28, height := 28 }

/-- Draw a radio button through the built-in renderer (ui/radio.rs,
`impl radio::Renderer for Renderer`): queue the base sprite (hover frame
when the cursor is over the label-inclusive bounds), queue the selection
mark when selected, and return `Pointer` when hovered, `Default`
otherwise. The first component is the renderer's sprite queue after the
call. -/
def radio_draw (sprites : List Sprite) (is_selected : Bool)
    (bounds : Rectangle ℚ) (bounds_with_label : Rectangle ℚ)
    (cursor_position : Point) : List Sprite × MouseCursor :=
  let mouse_over := bounds_with_label.contains cursor_position
  let hover_offset : Nat := if mouse_over then SPRITE.width else 0
  let base_source : Rectangle Nat := { SPRITE with x := SPRITE.x + hover_offset }
  let mark_source : Rectangle Nat := { SPRITE with x := SPRITE.x + SPRITE.width * 2 }
  let base_sprite : Sprite :=
    { source := base_source
      position := ⟨bounds.x, bounds.y⟩
      scale := (1, 1) }
  let mark_sprite : Sprite :=
    { source := mark_source
      position := ⟨bounds.x, bounds.y⟩
      scale := (1, 1) }
  let sprites := sprites ++ [base_sprite]
  let sprites := if is_selected then sprites ++ [mark_sprite] else sprites
  (sprites, if mouse_over then .pointer else .default)

/-! ## Transformation (graphics/transformation.rs) -/

/-- A 2D transformation matrix (transformation.rs wraps a
`nalgebra::Matrix4<f32>`), entries modelled by `ℚ`. -/
abbrev Transformation := Matrix (Fin 4) (Fin 4) ℚ

/-- Homogeneous point transform (`nalgebra Matrix4::transform_point` on
`(x, y, z)`): apply the linear part plus translation and divide by the
projective normalizer when it is nonzero. -/
def transformPoint3 (m : Transformation) (x y z : ℚ) : ℚ × ℚ × ℚ :=
  let n := m 3 0 * x + m 3 1 * y + m 3 2 * z + m 3 3
  let tx := m 0 0 * x + m 0 1 * y + m 0 2 * z + m 0 3
  let ty := m 1 0 * x + m 1 1 * y + m 1 2 * z + m 1 3
  let tz := m 2 0 * x + m 2 1 * y + m 2 2 * z + m 2 3
  if n = 0 then (tx, ty, tz) else (tx / n, ty / n, tz / n)

/-- Linear vector transform (`nalgebra Matrix4::transform_vector` on
`(x, y, z)`): apply only the upper-left 3×3 linear part. -/
def transformVector3 (m : Transformation) (x y z : ℚ) : ℚ × ℚ × ℚ :=
  (m 0 0 * x + m 0 1 * y + m 0 2 * z,
    m 1 0 * x + m 1 1 * y + m 1 2 * z,
    m 2 0 * x + m 2 1 * y + m 2 2 * z)

/-- Transform a point (transformation.rs `Transformation::transform_point`):
embed at `z = 0` and project back to 2D. -/
def Transformation.transform_point (m : Transformation) (p : Point) : Point :=
  let q := transformPoint3 m p.x p.y 0
  ⟨q.1, q.2.1⟩

/-- Transform a vector (transformation.rs
`Transformation::transform_vector`). -/
def Transformation.transform_vector (m : Transformation) (v : Vec2) : Vec2 :=
  let q := transformVector3 m v.x v.y 0
  ⟨q.1, q.2.1⟩

/-- Matrix inversion attempt (`nalgebra Matrix4::try_inverse`): in exact
arithmetic the inverse `det⁻¹ • adjugate` exists exactly when the
determinant is nonzero. -/
def Transformation.try_inverse (m : Transformation) : Option Transformation :=
  if m.det = 0 then none else some (m.det⁻¹ • m.adjugate)

/-- Transform a point by the inverse (transformation.rs
`Transformation::inverse_transform_point`): `try_inverse().expect(..)` then
transform; `none` models the panic of `expect`. -/
def Transformation.inverse_transform_point (m : Transformation) (p : Point) :
    Option Point :=
  (m.try_inverse).map fun mi => mi.transform_point p

/-- Transform a vector by the inverse (transformation.rs
`Transformation::inverse_transform_vector`). -/
def Transformation.inverse_transform_vector (m : Transformation) (v : Vec2) :
    Option Vec2 :=
  (m.try_inverse).map fun mi => mi.transform_vector v

/-! ## Helper definitions and concrete fixtures -/

/-- Set the `margin.end` dimension of a node's style, the per-child update
`Row::node` performs. -/
def setEndMargin (n : Node) (d : Dimension) : Node :=
  n.set_style { n.style with margin := { n.style.margin with end' := d } }

/-- Fixture: a concrete rectangle used as resolved bounds. -/
def wBounds : Rectangle ℚ := { x := 0, y := 0, width := 100, height := 50 }

/-- Fixture: a point inside `wBounds`. -/
def wInside : Point := ⟨10, 10⟩

/-- Fixture: a point outside `wBounds`. -/
def wOutside : Point := ⟨500, 500⟩

/-- Fixture: a leaf layout node over `wBounds`. -/
def wLayoutLeaf : Layout := .mk wBounds []

/-- Fixture: a layout with exactly one child. -/
def wLayoutOne : Layout := .mk wBounds [wLayoutLeaf]

/-- Fixture: a layout with exactly two children. -/
def wLayoutTwo : Layout :=
  .mk wBounds [.mk { x := 0, y := 0, width := 50, height := 50 } [],
    .mk { x := 50, y := 0, width := 50, height := 50 } []]

/-- Fixture: a child layout node with margins already populated. -/
def wNodeA : Node := .mk ⟨⟨.points 1, .points 2, .points 3, .points 4⟩⟩ []

/-- Fixture: a second child layout node. -/
def wNodeB : Node := .mk ⟨⟨.auto, .auto, .auto, .auto⟩⟩ []

/-- Fixture: a child element that appends message `0` and draws the default
cursor. -/
def wElemA : Element Nat :=
  { node := wNodeA
    on_event := fun _ _ _ msgs => msgs ++ [0]
    draw := fun _ _ => .default }

/-- Fixture: a child element that appends message `1` and draws the pointer
cursor. -/
def wElemB : Element Nat :=
  { node := wNodeB
    on_event := fun _ _ _ msgs => msgs ++ [1]
    draw := fun _ _ => .pointer }

/-- Fixture: a row with two children and spacing 30. -/
def wRow2 : Row Nat :=
  { style := Style.defaultStyle, spacing := 30, children := [wElemA, wElemB] }

/-- Fixture: a checkbox with a label, unchecked, identity toggle. -/
def wCheckA : Checkbox Bool :=
  { is_checked := false, on_toggle := fun b => b, label := "Toggle"
    label_color := ⟨1, 1, 1, 1⟩ }

/-- Fixture: same label as `wCheckA`, different checked state, color and
toggle function. -/
def wCheckB : Checkbox Bool :=
  { is_checked := true, on_toggle := fun b => !b, label := "Toggle"
    label_color := ⟨0, 0, 0, 1⟩ }

/-- Fixture: a checkbox labelled differently from `wCheckD`. -/
def wCheckC : Checkbox Bool :=
  { is_checked := false, on_toggle := fun b => b, label := "Music"
    label_color := ⟨1, 1, 1, 1⟩ }

/-- Fixture: a checkbox labelled differently from `wCheckC`. -/
def wCheckD : Checkbox Bool :=
  { is_checked := false, on_toggle := fun b => b, label := "Sound"
    label_color := ⟨1, 1, 1, 1⟩ }

/-- Fixture: a button with a configured click message. -/
def wButton : Button Nat :=
  { state := ⟨false⟩, label := "Play", style := Style.defaultStyle
    on_click := some 7 }

/-- Fixture: a stage title. -/
def wTitle : String := "Generating map"

/-- Fixture: a unit-work task producing a number. -/
def wTaskA : Task Nat := Task.new fun _ => 0

/-- Fixture: a unit-work task producing a boolean. -/
def wTaskB : Task Bool := Task.new fun _ => true

/-- Fixture: a unit-work task producing a unit. -/
def wTaskC : Task Unit := Task.new fun _ => ()

/-- Fixture: a progress value with zero total work and over-reported
completed work. -/
def wProgress : Progress := { total_work := 0, work_completed := 7, stages := [] }

/-! ## Theorems -/

/-- Evaluation fact: the fixture point `wInside` lies inside `wBounds`. -/
theorem wBounds_contains_wInside : wBounds.contains wInside = true := by
  norm_num [Rectangle.contains, wBounds, wInside]

/-- Evaluation fact: the fixture point `wOutside` lies outside `wBounds`. -/
theorem wBounds_contains_wOutside : wBounds.contains wOutside = false := by
  norm_num [Rectangle.contains, wBounds, wOutside]

/-- Claim C9: for every `Progress` value, however much work has been
notified (even more than `total_work`, or with `total_work = 0`),
`completed_work()` lies in `[0, total_work()]` and `percentage()` never
divides by zero and lies in `[0, 100]`, with `total_work = 0` yielding
`0%`. (`completed_work ≥ 0` holds by the `Nat` model of `u32`.) -/
theorem progress_bounds (p : Progress) :
    p.completed_work ≤ p.total_work ∧
    0 ≤ p.percentage ∧ p.percentage ≤ 100 ∧
    (p.total_work = 0 → p.percentage = 0) := by
  refine ⟨Nat.min_le_right _ _, ?_, ?_, ?_⟩
  · unfold Progress.percentage
    positivity
  · unfold Progress.percentage
    have hm : (0 : ℚ) < ((max p.total_work 1 : Nat) : ℚ) := by
      exact_mod_cast Nat.lt_of_lt_of_le Nat.zero_lt_one (Nat.le_max_right _ _)
    have hc : (p.completed_work : ℚ) ≤ ((max p.total_work 1 : Nat) : ℚ) := by
      exact_mod_cast le_trans (Nat.min_le_right _ _) (Nat.le_max_left _ _)
    have h1 : (p.completed_work : ℚ) / ((max p.total_work 1 : Nat) : ℚ) ≤ 1 :=
      (div_le_one hm).mpr hc
    calc (p.completed_work : ℚ) / ((max p.total_work 1 : Nat) : ℚ) * 100
        ≤ 1 * 100 := mul_le_mul_of_nonneg_right h1 (by norm_num)
      _ = 100 := by norm_num
  · intro h
    simp [Progress.percentage, Progress.completed_work, h]

/-- Witness for C9 at a concrete progress value with zero total work and
over-reported completed work. -/
theorem progress_bounds_witness :
    wProgress.completed_work ≤ wProgress.total_work ∧ wProgress.percentage = 0 :=
  ⟨(progress_bounds wProgress).1, (progress_bounds wProgress).2.2.2 rfl⟩

/-- Claim C10: task combinators preserve work accounting: joining two
(resp. three) tasks sums their total work (stated under no-`u32`-overflow
side conditions, the sums being wrapping machine additions), while
`Task::stage` and `Task::map` leave `total_work` unchanged. -/
theorem task_total_work_accounting {A B C T U : Type}
    (a : Task A) (b : Task B) (c : Task C) (t : Task T) (f : T → U)
    (title : String)
    (h₂ : a.total_work + b.total_work < 2 ^ 32)
    (h₃ : a.total_work + b.total_work + c.total_work < 2 ^ 32) :
    (join2 (a, b)).total_work = a.total_work + b.total_work ∧
    (join3 (a, b, c)).total_work =
      a.total_work + b.total_work + c.total_work ∧
    (Task.stage title t).total_work = t.total_work ∧
    (t.map f).total_work = t.total_work := by
  refine ⟨Nat.mod_eq_of_lt h₂, ?_, rfl, rfl⟩
  show ((a.total_work + b.total_work) % 2 ^ 32 + c.total_work) % 2 ^ 32 = _
  rw [Nat.mod_eq_of_lt h₂, Nat.mod_eq_of_lt h₃]

/-- Witness for C10 at three concrete unit-work tasks. -/
theorem task_total_work_accounting_witness :
    (join2 (wTaskA, wTaskB)).total_work =
      wTaskA.total_work + wTaskB.total_work ∧
    (join3 (wTaskA, wTaskB, wTaskC)).total_work =
      wTaskA.total_work + wTaskB.total_work + wTaskC.total_work := by
  have h := task_total_work_accounting wTaskA wTaskB wTaskC wTaskA
    (fun n => n) wTitle (by decide) (by decide)
  exact ⟨h.1, h.2.1⟩

/-- Claim C7: for a `Transformation` whose matrix is invertible,
`inverse_transform_point` and `inverse_transform_vector` return a result
without reaching the failure branch (`isSome`); for a non-invertible
matrix both are fatal (`none` models the `expect` panic). -/
theorem transformation_inverse_totality (m : Transformation) (p : Point)
    (v : Vec2) :
    (IsUnit m → (m.inverse_transform_point p).isSome = true ∧
      (m.inverse_transform_vector v).isSome = true) ∧
    (¬ IsUnit m → m.inverse_transform_point p = none ∧
      m.inverse_transform_vector v = none) := by
  have hiff : IsUnit m ↔ m.det ≠ 0 :=
    (Matrix.isUnit_iff_isUnit_det m).trans isUnit_iff_ne_zero
  constructor
  · intro hu
    have hd := hiff.mp hu
    simp [Transformation.inverse_transform_point,
      Transformation.inverse_transform_vector, Transformation.try_inverse, hd]
  · intro hu
    have hd : m.det = 0 := by
      by_contra hne
      exact hu (hiff.mpr hne)
    simp [Transformation.inverse_transform_point,
      Transformation.inverse_transform_vector, Transformation.try_inverse, hd]

/-- Witness for C7 at the identity matrix (invertible, no panic) and the
zero matrix (degenerate, panic branch). -/
theorem transformation_inverse_totality_witness :
    ((1 : Transformation).inverse_transform_point wInside).isSome = true ∧
    (0 : Transformation).inverse_transform_point wInside = none := by
  constructor
  · exact ((transformation_inverse_totality 1 wInside ⟨0, 0⟩).1 isUnit_one).1
  · refine ((transformation_inverse_totality 0 wInside ⟨0, 0⟩).2 ?_).1
    simp [Matrix.isUnit_iff_isUnit_det, Matrix.det_zero]

/-- The scalar value of a character determines the character. -/
theorem char_toNat_injective : Function.Injective Char.toNat :=
  fun _ _ h => Char.ext (UInt32.ext h)

/-- Claim C4: the `Checkbox` digest contribution is a pure function of the
label only: equal labels drive the hasher identically whatever
`is_checked`, `label_color` or `on_toggle` are, and different labels feed
different inputs to the hasher. -/
theorem checkbox_hash_label_pure {M : Type} (cb₁ cb₂ : Checkbox M)
    (state : List Nat) :
    (cb₁.label = cb₂.label → cb₁.hash state = cb₂.hash state) ∧
    (cb₁.label ≠ cb₂.label → cb₁.hash state ≠ cb₂.hash state) := by
  constructor
  · intro h
    simp [Checkbox.hash, hashString, h]
  · intro h heq
    apply h
    have hcat : state ++ (cb₁.label.data.map Char.toNat ++ [255]) =
        state ++ (cb₂.label.data.map Char.toNat ++ [255]) := by
      simpa [Checkbox.hash, hashString, List.append_assoc] using heq
    have h₁ := List.append_cancel_left hcat
    have h₂ := List.append_cancel_right h₁
    exact String.ext (List.map_injective_iff.mpr char_toNat_injective h₂)

/-- Witness for C4: same label with different transient state hashes
equally; different labels hash differently. -/
theorem checkbox_hash_label_pure_witness :
    wCheckA.hash [] = wCheckB.hash [] ∧ wCheckC.hash [] ≠ wCheckD.hash [] :=
  ⟨(checkbox_hash_label_pure wCheckA wCheckB []).1 rfl,
    (checkbox_hash_label_pure wCheckC wCheckD []).2 (by decide)⟩

/-- Claim C8: the radio renderer capability's `draw` returns `Pointer`
exactly when `bounds_with_label` contains the cursor position, `Default`
otherwise, independently of `is_selected`. -/
theorem radio_draw_cursor_hint (sprites : List Sprite) (sel sel' : Bool)
    (bounds bwl : Rectangle ℚ) (pos : Point) :
    ((radio_draw sprites sel bounds bwl pos).2 = .pointer ↔
      bwl.contains pos = true) ∧
    (bwl.contains pos = false →
      (radio_draw sprites sel bounds bwl pos).2 = .default) ∧
    (radio_draw sprites sel bounds bwl pos).2 =
      (radio_draw sprites sel' bounds bwl pos).2 := by
  cases h : bwl.contains pos <;> simp [radio_draw, h]

/-- Witness for C8: hovered radio yields `Pointer`, non-hovered yields
`Default`. -/
theorem radio_draw_cursor_hint_witness :
    (radio_draw [] true wBounds wBounds wInside).2 = .pointer ∧
    (radio_draw [] false wBounds wBounds wOutside).2 = .default :=
  ⟨(radio_draw_cursor_hint [] true true wBounds wBounds wInside).1.mpr
      wBounds_contains_wInside,
    (radio_draw_cursor_hint [] false false wBounds wBounds wOutside).2.1
      wBounds_contains_wOutside⟩

/-- Evaluation fact: some child of `wLayoutOne` contains `wInside`. -/
theorem wLayoutOne_any_inside :
    (wLayoutOne.children.any fun child => child.bounds.contains wInside) =
      true := by
  simp [wLayoutOne, wLayoutLeaf, Layout.children, Layout.bounds,
    wBounds_contains_wInside]

/-- Claim C6: `Checkbox::on_event` appends exactly one message —
`on_toggle` applied to the negation of `is_checked` — precisely when the
event is a left-button press and the cursor lies inside the bounds of some
child of the paired layout; any other event, or a cursor outside all child
bounds, leaves the messages unchanged. -/
theorem checkbox_on_event_toggle {M : Type} (cb : Checkbox M) (event : Event)
    (layout : Layout) (pos : Point) (msgs : List M) :
    (event = .mouseInput .pressed .left ∧
        (layout.children.any fun child => child.bounds.contains pos) = true →
      cb.on_event event layout pos msgs =
        msgs ++ [cb.on_toggle (!cb.is_checked)]) ∧
    (event ≠ .mouseInput .pressed .left ∨
        (layout.children.any fun child => child.bounds.contains pos) = false →
      cb.on_event event layout pos msgs = msgs) := by
  constructor
  · rintro ⟨rfl, h⟩
    simp [Checkbox.on_event, h]
  · intro h
    rcases h with h | h
    · cases event with
      | mouseInput s b =>
          cases s <;> cases b <;> first | exact absurd rfl h | rfl
      | cursorMoved x y => rfl
      | keyboardInput k s => rfl
    · cases event with
      | mouseInput s b =>
          cases s <;> cases b <;> simp [Checkbox.on_event, h]
      | cursorMoved x y => rfl
      | keyboardInput k s => rfl

/-- Witness for C6: a left press inside the child bounds toggles, a left
release does not. -/
theorem checkbox_on_event_toggle_witness :
    wCheckA.on_event (.mouseInput .pressed .left) wLayoutOne wInside [] =
      [wCheckA.on_toggle (!wCheckA.is_checked)] ∧
    wCheckA.on_event (.mouseInput .released .left) wLayoutOne wInside [] =
      [] :=
  ⟨(checkbox_on_event_toggle wCheckA _ wLayoutOne wInside []).1
      ⟨rfl, wLayoutOne_any_inside⟩,
    (checkbox_on_event_toggle wCheckA _ wLayoutOne wInside []).2
      (Or.inl (by simp))⟩

/-- Claim C1: a completed click — left press inside the button's resolved
bounds followed by left release inside them — appends the configured
message exactly once; a press inside followed by a release outside (or
vice versa) appends nothing. -/
theorem button_click_semantics {M : Type} (b : Button M) (m : M)
    (layout : Layout) (p₁ p₂ : Point) (msgs : List M)
    (hc : b.on_click = some m) :
    (layout.bounds.contains p₁ = true → layout.bounds.contains p₂ = true →
      (b.process [(.mouseInput .pressed .left, p₁),
        (.mouseInput .released .left, p₂)] layout msgs).2 = msgs ++ [m]) ∧
    (layout.bounds.contains p₁ = true → layout.bounds.contains p₂ = false →
      (b.process [(.mouseInput .pressed .left, p₁),
        (.mouseInput .released .left, p₂)] layout msgs).2 = msgs) ∧
    (layout.bounds.contains p₁ = false → layout.bounds.contains p₂ = true →
      (b.process [(.mouseInput .pressed .left, p₁),
        (.mouseInput .released .left, p₂)] layout msgs).2 = msgs) := by
  refine ⟨?_, ?_, ?_⟩ <;> intro h₁ h₂ <;>
    simp [Button.process, Button.on_event, hc, h₁, h₂]

/-- Witness for C1: a concrete button clicked inside its bounds emits its
message once; pressing inside but releasing outside emits nothing. -/
theorem button_click_semantics_witness :
    (wButton.process [(.mouseInput .pressed .left, wInside),
      (.mouseInput .released .left, wInside)] wLayoutLeaf []).2 = [7] ∧
    (wButton.process [(.mouseInput .pressed .left, wInside),
      (.mouseInput .released .left, wOutside)] wLayoutLeaf []).2 = [] := by
  have h := button_click_semantics wButton 7 wLayoutLeaf wInside wInside [] rfl
  have h' :=
    button_click_semantics wButton 7 wLayoutLeaf wInside wOutside [] rfl
  exact ⟨h.1 wBounds_contains_wInside wBounds_contains_wInside,
    h'.2.1 wBounds_contains_wInside wBounds_contains_wOutside⟩

/-- Zipping truncates the left list to the length of the right one. -/
theorem zip_take_left {α β : Type} (l₁ : List α) (l₂ : List β) :
    (l₁.take l₂.length).zip l₂ = l₁.zip l₂ := by
  induction l₁ generalizing l₂ with
  | nil => simp
  | cons a as ih =>
    cases l₂ with
    | nil => simp
    | cons b bs => simp [ih]

/-- Zipping truncates the right list to the length of the left one. -/
theorem zip_take_right {α β : Type} (l₁ : List α) (l₂ : List β) :
    l₁.zip (l₂.take l₁.length) = l₁.zip l₂ := by
  induction l₁ generalizing l₂ with
  | nil => simp
  | cons a as ih =>
    cases l₂ with
    | nil => simp
    | cons b bs => simp [ih]

/-- Claim C2 counterexample: a `Row` with two children dispatched against
a layout with a single child returns normally — no panic or abort — and
silently processes only the first child (only message `0` is appended). -/
theorem row_on_event_mismatch_counterexample :
    wRow2.children.length = 2 ∧ wLayoutOne.children.length = 1 ∧
    wRow2.on_event (.mouseInput .pressed .left) wLayoutOne wInside [] =
      [0] := by
  refine ⟨rfl, rfl, ?_⟩
  rfl

/-- Claim C2 amended: when the paired layout's child count differs from
the `Row`'s child count, `Row::on_event` does not panic: the `zip` makes
it silently dispatch only to the common prefix, ignoring surplus children
on either side. -/
theorem row_on_event_common_prefix {M : Type} (row : Row M) (event : Event)
    (layout : Layout) (pos : Point) (msgs : List M) :
    row.on_event event layout pos msgs =
      (Row.mk row.style row.spacing
        (row.children.take layout.children.length)).on_event
        event layout pos msgs ∧
    row.on_event event
        (.mk layout.bounds (layout.children.take row.children.length))
        pos msgs =
      row.on_event event layout pos msgs := by
  constructor
  · simp [Row.on_event, zip_take_left]
  · simp [Row.on_event, Layout.children, zip_take_right]

/-- The last element default of `getLast?` is irrelevant on a nonempty
list. -/
theorem getLast?_getD_of_ne_nil {α : Type} (l : List α) (h : l ≠ [])
    (x y : α) : l.getLast?.getD x = l.getLast?.getD y := by
  rw [List.getLast?_eq_getLast l h]
  rfl

/-- Folding "keep the new cursor when it is not the default" yields the
last non-default element, or the initial accumulator when there is none. -/
theorem foldl_keep_nondefault (l : List MouseCursor) (init : MouseCursor) :
    l.foldl (fun cursor n => if n ≠ MouseCursor.default then n else cursor)
        init =
      ((l.filter fun c => decide (c ≠ MouseCursor.default)).getLast?).getD
        init := by
  induction l generalizing init with
  | nil => rfl
  | cons a as ih =>
    by_cases ha : a = MouseCursor.default
    · subst ha
      rw [List.foldl_cons, ih]
      simp [List.filter_cons]
    · rw [List.foldl_cons, if_pos ha, ih]
      have hfc : (a :: as).filter
          (fun c => decide (c ≠ MouseCursor.default)) =
          a :: as.filter (fun c => decide (c ≠ MouseCursor.default)) := by
        simp [List.filter_cons, ha]
      rw [hfc]
      cases hfa : as.filter (fun c => decide (c ≠ MouseCursor.default)) with
      | nil => simp
      | cons b bs => exact getLast?_getD_of_ne_nil (b :: bs) (by simp) a init

/-- Claim C5: `Row::draw` returns the default cursor when every child draw
call returns the default one; when exactly one child returns a non-default
cursor it returns that cursor; in general it returns the last non-default
cursor in traversal order, or the default cursor if there is none. -/
theorem row_draw_cursor_aggregation {M : Type} (row : Row M)
    (layout : Layout) (pos : Point) :
    ((∀ c ∈ row.drawResults layout pos, c = MouseCursor.default) →
      row.draw layout pos = MouseCursor.default) ∧
    (∀ l₁ c l₂, row.drawResults layout pos = l₁ ++ c :: l₂ →
      c ≠ MouseCursor.default →
      (∀ x ∈ l₁, x = MouseCursor.default) →
      (∀ x ∈ l₂, x = MouseCursor.default) →
      row.draw layout pos = c) ∧
    row.draw layout pos =
      (((row.drawResults layout pos).filter
        fun c => decide (c ≠ MouseCursor.default)).getLast?).getD
        MouseCursor.default := by
  have hdraw : row.draw layout pos =
      (row.drawResults layout pos).foldl
        (fun cursor n => if n ≠ MouseCursor.default then n else cursor)
        MouseCursor.default := by
    simp [Row.draw, Row.drawResults, List.foldl_map]
  have hgen : row.draw layout pos =
      (((row.drawResults layout pos).filter
        fun c => decide (c ≠ MouseCursor.default)).getLast?).getD
        MouseCursor.default := by
    rw [hdraw, foldl_keep_nondefault]
  refine ⟨?_, ?_, hgen⟩
  · intro hall
    have hnil : (row.drawResults layout pos).filter
        (fun c => decide (c ≠ MouseCursor.default)) = [] := by
      refine List.filter_eq_nil_iff.mpr ?_
      intro a ha
      simp [hall a ha]
    rw [hgen, hnil]
    rfl
  · intro l₁ c l₂ heq hc h₁ h₂
    have hf₁ : l₁.filter (fun c => decide (c ≠ MouseCursor.default)) = [] := by
      refine List.filter_eq_nil_iff.mpr ?_
      intro a ha
      simp [h₁ a ha]
    have hf₂ : l₂.filter (fun c => decide (c ≠ MouseCursor.default)) = [] := by
      refine List.filter_eq_nil_iff.mpr ?_
      intro a ha
      simp [h₂ a ha]
    have hcolim : decide (c ≠ MouseCursor.default) = true := by simp [hc]
    rw [hgen, heq, List.filter_append, hf₁, List.nil_append,
      List.filter_cons, if_pos hcolim, hf₂]
    rfl

/-- Witness for C5: a row whose children draw `Default` then `Pointer`
draws `Pointer` overall. -/
theorem row_draw_cursor_aggregation_witness :
    wRow2.draw wLayoutTwo wInside = MouseCursor.pointer :=
  (row_draw_cursor_aggregation wRow2 wLayoutTwo wInside).2.1
    [MouseCursor.default] MouseCursor.pointer [] rfl (by simp)
    (by simp) (by simp)

/-- Overriding the end margin twice keeps only the second value. -/
theorem setEndMargin_setEndMargin (n : Node) (d₁ d₂ : Dimension) :
    setEndMargin (setEndMargin n d₁) d₂ = setEndMargin n d₂ := by
  cases n
  rfl

/-- Replacing the last element of a list, position by position: the last
position holds the new value, every earlier position is unchanged. -/
theorem dropLast_append_getElem {α : Type} (l : List α) (y : α)
    (hne : l ≠ []) (i : Nat) (hi : i < l.length) :
    (l.dropLast ++ [y])[i]? =
      if i = l.length - 1 then some y else l[i]? := by
  have hlen : l.dropLast.length = l.length - 1 := List.length_dropLast l
  have hpos : 0 < l.length := List.length_pos.mpr hne
  by_cases hlast : i = l.length - 1
  · subst hlast
    rw [List.getElem?_append_right (by rw [hlen])]
    simp [hlen]
  · rw [if_neg hlast]
    have hi' : i < l.length - 1 := by omega
    have hd : (l.dropLast ++ [y])[i]? = l.dropLast[i]? := by
      rw [List.getElem?_append]
      rw [if_pos (by rw [hlen]; exact hi')]
    have hd2 : l.dropLast[i]? = l[i]? := by
      rw [List.getElem?_eq_getElem (by rw [hlen]; exact hi'),
        List.getElem?_eq_getElem (by omega)]
      simp [List.getElem_dropLast]
    rw [hd, hd2]

/-- Claim C3: for a `Row` with at least one child, `Row::node` produces
exactly one child node per child in push order; every child but the last
carries an end margin of `spacing` points, and the last child's end margin
is left undefined. -/
theorem row_node_spacing_margins {M : Type} (row : Row M)
    (h : 1 ≤ row.children.length) :
    (row.node).children.length = row.children.length ∧
    ∀ i, (hi : i < row.children.length) →
      (row.node).children[i]? =
        some (setEndMargin (row.children.get ⟨i, hi⟩).node
          (if i = row.children.length - 1 then Dimension.undefined
            else Dimension.points (row.spacing : ℚ))) := by
  have hne : row.children.map
      (fun child => setEndMargin child.node
        (Dimension.points (row.spacing : ℚ))) ≠ [] := by
    intro hnil
    rw [List.map_eq_nil_iff] at hnil
    rw [hnil] at h
    simp at h
  have hlenmap : (row.children.map
      (fun child => setEndMargin child.node
        (Dimension.points (row.spacing : ℚ)))).length =
      row.children.length := List.length_map _ _
  have hchildren : (row.node).children =
      (row.children.map
        (fun child => setEndMargin child.node
          (Dimension.points (row.spacing : ℚ)))).dropLast ++
        [setEndMargin
          ((row.children.map
            (fun child => setEndMargin child.node
              (Dimension.points (row.spacing : ℚ)))).getLast hne)
          Dimension.undefined] := by
    have hstep : (row.node).children =
        (match (row.children.map
          (fun child => setEndMargin child.node
            (Dimension.points (row.spacing : ℚ)))).getLast? with
        | some node =>
            (row.children.map
              (fun child => setEndMargin child.node
                (Dimension.points (row.spacing : ℚ)))).dropLast ++
              [setEndMargin node Dimension.undefined]
        | none =>
            row.children.map
              (fun child => setEndMargin child.node
                (Dimension.points (row.spacing : ℚ)))) := rfl
    rw [hstep, List.getLast?_eq_getLast _ hne]
  constructor
  · rw [hchildren]
    simp only [List.length_append, List.length_dropLast, List.length_map,
      List.length_cons, List.length_nil]
    omega
  · intro i hi
    have hsome : (row.children.map
        (fun child => setEndMargin child.node
          (Dimension.points (row.spacing : ℚ))))[i]? =
        some (setEndMargin (row.children.get ⟨i, hi⟩).node
          (Dimension.points (row.spacing : ℚ))) := by
      rw [List.getElem?_map, List.getElem?_eq_getElem hi]
      rfl
    rw [hchildren,
      dropLast_append_getElem _ _ hne i (by rw [hlenmap]; exact hi)]
    by_cases hlast : i = row.children.length - 1
    · rw [if_pos (by rw [hlenmap]; exact hlast), if_pos hlast]
      have hlastsome : some ((row.children.map
          (fun child => setEndMargin child.node
            (Dimension.points (row.spacing : ℚ)))).getLast hne) =
          some (setEndMargin (row.children.get ⟨i, hi⟩).node
            (Dimension.points (row.spacing : ℚ))) := by
        rw [← List.getLast?_eq_getLast _ hne, List.getLast?_eq_getElem?,
          hlenmap, ← hlast]
        exact hsome
      rw [Option.some.inj hlastsome, setEndMargin_setEndMargin]
    · rw [if_neg (by rw [hlenmap]; exact hlast), if_neg hlast]
      exact hsome

/-- Witness for C3: a concrete two-child row with spacing 30 produces two
child nodes, the first with a 30-point end margin, the last with an
undefined one. -/
theorem row_node_spacing_margins_witness :
    (wRow2.node).children.length = 2 ∧
    (wRow2.node).children[0]? =
      some (setEndMargin wNodeA (Dimension.points 30)) ∧
    (wRow2.node).children[1]? = some (setEndMargin wNodeB .undefined) := by
  have hk := row_node_spacing_margins wRow2 (by decide)
  refine ⟨hk.1, ?_, ?_⟩
  · have h0 := hk.2 0 (by decide)
    simpa using h0
  · have h1 := hk.2 1 (by decide)
    simpa using h1

end Coffee
